import Mathlib

/-!
Shallow embedding of the to-do list script (src/script.js).

The page state is: the ordered list items shown in the list container
(each an li whose content is the raw text plus a close span, and whose
checked class is the completion flag), the value of the text input, the
value stored under the single localStorage key, and instrumentation
counters for storage writes and blocking alerts. The localStorage blob
is the innerHTML of the container; since the browser round-trips the
markup it itself serialized, the blob is modelled at the data level as
the list of items it encodes, with the empty list standing for the
empty string (which is falsy in the load check).
-/

/-- One to-do entry: the raw text put into the list element by addItem
and the completion flag carried by the checked class. -/
structure Item where
  text : String
  checked : Bool
deriving Repr, DecidableEq

/-- The observable state of the page. -/
structure AppState where
  items : List Item
  inputValue : String
  storage : Option (List Item)
  saveCount : Nat
  alertCount : Nat
deriving Repr, DecidableEq

/-- The JS String.prototype.trim operation called by addItem: strip
leading and trailing whitespace characters. -/
def jsTrim (s : String) : String :=
  ⟨((s.data.dropWhile Char.isWhitespace).reverse.dropWhile Char.isWhitespace).reverse⟩

/-- saveData: writes the current container content under the fixed key,
overwriting any prior value. -/
def saveData (s : AppState) : AppState :=
  { s with storage := some s.items, saveCount := s.saveCount + 1 }

/-- addItem: if the input value is blank after trimming, fire a blocking
alert and return; otherwise append a new unchecked li holding the raw
input value, clear the input field and call saveData. -/
def addItem (s : AppState) : AppState :=
  if jsTrim s.inputValue = "" then
    { s with alertCount := s.alertCount + 1 }
  else
    saveData { s with
      items := s.items ++ [{ text := s.inputValue, checked := false }],
      inputValue := "" }

/-- Click whose target is the li at index i: toggle its checked class
and call saveData. A click with no such li target falls outside both
branches of the listener and is ignored. -/
def clickOnItem (s : AppState) (i : Nat) : AppState :=
  match s.items[i]? with
  | some it =>
      saveData { s with items := s.items.set i { it with checked := !it.checked } }
  | none => s

/-- Click whose target is the close span inside the li at index i:
remove that li from the container and call saveData. -/
def clickOnClose (s : AppState) (i : Nat) : AppState :=
  if i < s.items.length then
    saveData { s with items := s.items.eraseIdx i }
  else
    s

/-- showList: read the stored value; when it is absent or falsy (the
empty string, i.e. the empty list) the container is left untouched,
otherwise the container content is replaced by the stored one. -/
def showList (s : AppState) : AppState :=
  match s.storage with
  | some l => if l = [] then s else { s with items := l }
  | none => s

/-- A user-driven event: pressing Enter with the given input text,
clicking an li, or clicking a close span. -/
inductive Op where
  | submit (text : String)
  | clickItem (i : Nat)
  | clickClose (i : Nat)
deriving Repr, DecidableEq

/-- Dispatch of one event, as the keypress and click listeners do. -/
def applyOp (s : AppState) : Op → AppState
  | .submit t => addItem { s with inputValue := t }
  | .clickItem i => clickOnItem s i
  | .clickClose i => clickOnClose s i

/-- Run a sequence of events in order. -/
def run (s : AppState) (ops : List Op) : AppState :=
  ops.foldl applyOp s

/-- Whether an event takes its successful (mutating, saving) branch at
the given state. -/
def opSucceeds (s : AppState) : Op → Bool
  | .submit t => !(jsTrim t == "")
  | .clickItem i => decide (i < s.items.length)
  | .clickClose i => decide (i < s.items.length)

/-- Every event of the sequence takes its successful branch at the
state where it fires. -/
def allSucceed : AppState → List Op → Bool
  | _, [] => true
  | s, o :: rest => opSucceeds s o && allSucceed (applyOp s o) rest

/-- A freshly opened page before the startup load runs: empty
container, empty input, nothing stored. -/
def initState : AppState :=
  { items := [], inputValue := "", storage := none, saveCount := 0, alertCount := 0 }

/-- Bootstrap against a given stored value: fresh page, then showList
runs once. -/
def bootWith (σ : Option (List Item)) : AppState :=
  showList { initState with storage := σ }

/-- A page-lifetime event: a user mutation, or a reload that re-runs
the bootstrap on a fresh page against the surviving stored value. -/
inductive Ev where
  | act (o : Op)
  | reload
deriving Repr, DecidableEq

/-- Dispatch of one page-lifetime event. -/
def applyEv (s : AppState) : Ev → AppState
  | .act o => applyOp s o
  | .reload => bootWith s.storage

/-- Run a sequence of page-lifetime events in order. -/
def runEv (s : AppState) (evs : List Ev) : AppState :=
  evs.foldl applyEv s


/-- A page state with the given items and input value, nothing stored
and zero counters; used to state concrete instances. -/
def mkState (l : List Item) (v : String) : AppState :=
  { items := l, inputValue := v, storage := none, saveCount := 0, alertCount := 0 }

/-- Setting an index of a list to the element already stored there
leaves the list unchanged. -/
theorem set_getElem_eq_self {α : Type} (l : List α) (i : Nat) (h : i < l.length) :
    l.set i l[i] = l := by
  induction l generalizing i with
  | nil => simp at h
  | cons a t ih =>
    cases i with
    | zero => simp
    | succ n => simpa using ih n (by simpa using h)

/-- Rebuilding an Item from its own fields gives the same Item. -/
theorem Item.eta (x : Item) : Item.mk x.text x.checked = x := rfl

/-- C1: on input that is non-blank after trimming, addItem appends
exactly one new unchecked item carrying the text, the list length grows
by one, the input field is cleared, and a save follows. -/
theorem addItem_appends (s : AppState) (h : jsTrim s.inputValue ≠ "") :
    (addItem s).items = s.items ++ [{ text := s.inputValue, checked := false }] ∧
    (addItem s).items.length = s.items.length + 1 ∧
    (addItem s).inputValue = "" ∧
    (addItem s).saveCount = s.saveCount + 1 ∧
    (addItem s).storage = some ((addItem s).items) := by
  simp [addItem, saveData, h]

theorem addItem_appends_witness :
    (addItem (mkState [] "a")).items = [{ text := "a", checked := false }] :=
  (addItem_appends (mkState [] "a") (by decide)).1

/-- C2: on blank or whitespace-only input, addItem leaves the items,
the stored snapshot, the input field and the save counter unchanged,
and fires exactly one blocking alert. -/
theorem addItem_blank (s : AppState) (h : jsTrim s.inputValue = "") :
    (addItem s).items = s.items ∧
    (addItem s).storage = s.storage ∧
    (addItem s).inputValue = s.inputValue ∧
    (addItem s).saveCount = s.saveCount ∧
    (addItem s).alertCount = s.alertCount + 1 := by
  simp [addItem, h]

theorem addItem_blank_witness :
    (addItem (mkState [] "   ")).items = [] ∧
    (addItem (mkState [] "   ")).alertCount = 1 :=
  ⟨(addItem_blank _ (by decide)).1, (addItem_blank _ (by decide)).2.2.2.2⟩

/-- C9: the created item stores the raw input text, untrimmed, with any
leading and trailing whitespace preserved. -/
theorem addItem_raw_text (s : AppState) (h : jsTrim s.inputValue ≠ "") :
    (addItem s).items.getLast? = some { text := s.inputValue, checked := false } := by
  simp [addItem, saveData, h, List.getLast?_concat]

theorem addItem_raw_text_witness :
    (addItem (mkState [] " a ")).items.getLast? = some { text := " a ", checked := false } :=
  addItem_raw_text (mkState [] " a ") (by decide)

/-- C10: toggling the item at index i changes only its checked flag:
the length, every other position, the text at i, and the input field
are unchanged, while the checked flag at i flips. -/
theorem toggle_frame (s : AppState) (i : Nat) (h : i < s.items.length) :
    (clickOnItem s i).items.length = s.items.length ∧
    (∀ j, j ≠ i → (clickOnItem s i).items[j]? = s.items[j]?) ∧
    ((clickOnItem s i).items[i]?.map Item.text) = s.items[i]?.map Item.text ∧
    ((clickOnItem s i).items[i]?.map Item.checked) = some (!(s.items[i]).checked) ∧
    (clickOnItem s i).inputValue = s.inputValue := by
  have h1 : s.items[i]? = some s.items[i] := List.getElem?_eq_getElem h
  refine ⟨?_, ?_, ?_, ?_, ?_⟩
  · simp [clickOnItem, h1, saveData]
  · intro j hj
    simp only [clickOnItem, h1, saveData]
    exact List.getElem?_set_ne (fun e => hj e.symm)
  · simp [clickOnItem, h1, saveData, h]
  · simp [clickOnItem, h1, saveData, h]
  · simp [clickOnItem, h1, saveData]

theorem toggle_frame_witness :
    (clickOnItem (mkState [{ text := "a", checked := false }, { text := "b", checked := true }] "") 0).items[1]? =
      some { text := "b", checked := true } :=
  ((toggle_frame (mkState [{ text := "a", checked := false }, { text := "b", checked := true }] "") 0 (by decide)).2.1 1 (by decide)).trans (by decide)

/-- C5: toggling the same item twice restores the whole item list, and
in particular that item has its original checked flag. -/
theorem toggle_twice (s : AppState) (i : Nat) (h : i < s.items.length) :
    (clickOnItem (clickOnItem s i) i).items = s.items := by
  have h1 : s.items[i]? = some s.items[i] := List.getElem?_eq_getElem h
  simp [clickOnItem, h1, saveData, h, List.set_set, Bool.not_not, Item.eta,
    set_getElem_eq_self s.items i h]

theorem toggle_twice_witness :
    (clickOnItem (clickOnItem (mkState [{ text := "a", checked := false }] "") 0) 0).items =
      [{ text := "a", checked := false }] :=
  toggle_twice (mkState [{ text := "a", checked := false }] "") 0 (by decide)

/-- C6: removing the item at index i shortens the list by exactly one
and keeps every other item, in order, with text and flag untouched. -/
theorem remove_frame (s : AppState) (i : Nat) (h : i < s.items.length) :
    (clickOnClose s i).items.length = s.items.length - 1 ∧
    (clickOnClose s i).items = s.items.take i ++ s.items.drop (i + 1) := by
  constructor
  · simp [clickOnClose, h, saveData, List.length_eraseIdx_of_lt h]
  · simp [clickOnClose, h, saveData, List.eraseIdx_eq_take_drop_succ]

theorem remove_frame_witness :
    (clickOnClose (mkState [{ text := "a", checked := false }, { text := "b", checked := true }] "") 0).items = [{ text := "b", checked := true }] :=
  (remove_frame (mkState [{ text := "a", checked := false }, { text := "b", checked := true }] "") 0 (by decide)).2

/-- C3: after any event sequence followed immediately by a save, a
fresh bootstrap against the stored value reproduces the same ordered
sequence of text and checked pairs. -/
theorem save_load_round_trip (s : AppState) (ops : List Op) :
    (bootWith (saveData (run s ops)).storage).items = (run s ops).items := by
  cases hl : (run s ops).items with
  | nil => simp [bootWith, showList, saveData, initState, hl]
  | cons a t => simp [bootWith, showList, saveData, initState, hl]

/-- C7: bootstrapping with nothing stored yields exactly the fresh
empty page: the list is empty and no alert or write occurred, so the
outcome is indistinguishable from the no-data case. -/
theorem boot_no_data :
    bootWith none = initState ∧ (bootWith none).items = [] :=
  ⟨rfl, rfl⟩

/-- An event on its successful branch performs exactly one save, and
afterwards the stored value is the current item list. -/
theorem applyOp_succeeds_save (s : AppState) (o : Op) (h : opSucceeds s o = true) :
    (applyOp s o).saveCount = s.saveCount + 1 ∧
    (applyOp s o).storage = some ((applyOp s o).items) := by
  cases o with
  | submit t =>
      have ht : jsTrim t ≠ "" := by simpa [opSucceeds] using h
      simp [applyOp, addItem, saveData, ht]
  | clickItem i =>
      have hi : i < s.items.length := by simpa [opSucceeds] using h
      have h1 : s.items[i]? = some s.items[i] := List.getElem?_eq_getElem hi
      simp [applyOp, clickOnItem, h1, saveData]
  | clickClose i =>
      have hi : i < s.items.length := by simpa [opSucceeds] using h
      simp [applyOp, clickOnClose, hi, saveData]

/-- C4: when every event of a sequence takes its successful branch, N
events cause exactly N storage writes, and after a non-empty sequence
the stored value equals the current item list. -/
theorem mutations_persist (s : AppState) (ops : List Op)
    (h : allSucceed s ops = true) :
    (run s ops).saveCount = s.saveCount + ops.length ∧
    (ops ≠ [] → (run s ops).storage = some ((run s ops).items)) := by
  induction ops generalizing s with
  | nil => simp [run]
  | cons o rest ih =>
      simp only [allSucceed, Bool.and_eq_true] at h
      obtain ⟨h1, h2⟩ := h
      have step := applyOp_succeeds_save s o h1
      have tail := ih (applyOp s o) h2
      have hrun : run s (o :: rest) = run (applyOp s o) rest := rfl
      constructor
      · rw [hrun, tail.1, step.1, List.length_cons]
        omega
      · intro _
        cases rest with
        | nil => simpa [run] using step.2
        | cons r rs => exact tail.2 (by simp)

theorem mutations_persist_witness :
    (run initState [Op.submit "a", Op.clickItem 0]).saveCount = 2 ∧
    (run initState [Op.submit "a", Op.clickItem 0]).storage =
      some ((run initState [Op.submit "a", Op.clickItem 0]).items) :=
  ⟨(mutations_persist initState [Op.submit "a", Op.clickItem 0] (by decide)).1,
   (mutations_persist initState [Op.submit "a", Op.clickItem 0] (by decide)).2 (by simp)⟩

/-- All item texts of a list are non-blank after trimming. -/
def TextsOk (l : List Item) : Prop := ∀ it ∈ l, jsTrim it.text ≠ ""

/-- The creation-time validation invariant over the page state: both
the visible items and any stored snapshot carry only non-blank texts. -/
def PageInv (s : AppState) : Prop :=
  TextsOk s.items ∧ ∀ l, s.storage = some l → TextsOk l

/-- Toggling one entry of a list with only non-blank texts again gives
only non-blank texts. -/
theorem textsOk_set_toggle {l : List Item} {i : Nat} {it : Item}
    (hl : TextsOk l) (hit : l[i]? = some it) :
    TextsOk (l.set i { it with checked := !it.checked }) := by
  intro x hx
  rcases List.mem_or_eq_of_mem_set hx with hx | rfl
  · exact hl x hx
  · exact hl it (List.getElem?_mem hit)

/-- Appending a freshly validated item keeps all texts non-blank. -/
theorem textsOk_append_new {l : List Item} {t : String}
    (hl : TextsOk l) (ht : jsTrim t ≠ "") :
    TextsOk (l ++ [{ text := t, checked := false }]) := by
  intro x hx
  rcases List.mem_append.mp hx with hx | hx
  · exact hl x hx
  · simp at hx
    subst hx
    exact ht

/-- Removing an entry keeps all texts non-blank. -/
theorem textsOk_eraseIdx {l : List Item} {i : Nat} (hl : TextsOk l) :
    TextsOk (l.eraseIdx i) :=
  fun x hx => hl x (List.mem_of_mem_eraseIdx hx)

/-- Every user mutation preserves the validation invariant. -/
theorem inv_applyOp (s : AppState) (o : Op) (h : PageInv s) : PageInv (applyOp s o) := by
  obtain ⟨hitems, hstore⟩ := h
  cases o with
  | submit t =>
      by_cases ht : jsTrim t = ""
      · simpa [applyOp, addItem, ht] using ⟨hitems, hstore⟩
      · have hs : applyOp s (Op.submit t) = saveData { s with
            items := s.items ++ [{ text := t, checked := false }], inputValue := "" } := by
          simp [applyOp, addItem, ht]
        rw [hs]
        refine ⟨textsOk_append_new hitems ht, ?_⟩
        intro l hl
        simp only [saveData, Option.some.injEq] at hl
        exact hl ▸ textsOk_append_new hitems ht
  | clickItem i =>
      cases h1 : s.items[i]? with
      | none => simpa [applyOp, clickOnItem, h1] using ⟨hitems, hstore⟩
      | some it =>
          have hs : applyOp s (Op.clickItem i) = saveData { s with
              items := s.items.set i { it with checked := !it.checked } } := by
            simp [applyOp, clickOnItem, h1]
          rw [hs]
          refine ⟨textsOk_set_toggle hitems h1, ?_⟩
          intro l hl
          simp only [saveData, Option.some.injEq] at hl
          exact hl ▸ textsOk_set_toggle hitems h1
  | clickClose i =>
      by_cases hi : i < s.items.length
      · have hs : applyOp s (Op.clickClose i) = saveData { s with
            items := s.items.eraseIdx i } := by
          simp [applyOp, clickOnClose, hi]
        rw [hs]
        refine ⟨textsOk_eraseIdx hitems, ?_⟩
        intro l hl
        simp only [saveData, Option.some.injEq] at hl
        exact hl ▸ textsOk_eraseIdx hitems
      · simpa [applyOp, clickOnClose, hi] using ⟨hitems, hstore⟩

/-- All texts of the empty list are trivially non-blank. -/
theorem textsOk_nil : TextsOk [] :=
  fun x hx => absurd hx (List.not_mem_nil x)

/-- Every page-lifetime event preserves the validation invariant. -/
theorem inv_applyEv (s : AppState) (e : Ev) (h : PageInv s) : PageInv (applyEv s e) := by
  cases e with
  | act o => exact inv_applyOp s o h
  | reload =>
      obtain ⟨hitems, hstore⟩ := h
      cases hσ : s.storage with
      | none =>
          have hs : applyEv s Ev.reload = initState := by
            simp [applyEv, bootWith, showList, hσ]
            rfl
          rw [hs]
          refine ⟨textsOk_nil, ?_⟩
          intro l hl
          simp [initState] at hl
      | some l =>
          have hok : TextsOk l := hstore l hσ
          by_cases hl : l = []
          · subst hl
            refine ⟨?_, ?_⟩
            · intro x hx
              simp [applyEv, bootWith, showList, initState, hσ] at hx
            · intro l2 hl2
              simp [applyEv, bootWith, showList, initState, hσ] at hl2
              exact hl2 ▸ textsOk_nil
          · refine ⟨?_, ?_⟩
            · intro x hx
              simp only [applyEv, bootWith, showList, initState, hσ, if_neg hl] at hx
              exact hok x hx
            · intro l2 hl2
              simp only [applyEv, bootWith, showList, initState, hσ, if_neg hl] at hl2
              cases hl2
              exact hok

/-- The validation invariant holds on the fresh page. -/
theorem inv_initState : PageInv initState := by
  refine ⟨?_, ?_⟩
  · intro it hit
    simp [initState] at hit
  · intro l hl
    simp [initState] at hl

/-- Event sequences preserve the validation invariant. -/
theorem inv_runEv (s : AppState) (evs : List Ev) (h : PageInv s) : PageInv (runEv s evs) := by
  induction evs generalizing s with
  | nil => exact h
  | cons e rest ih => exact ih (applyEv s e) (inv_applyEv s e h)

/-- C8: in every state reachable from the fresh page, every item text
is non-blank after trimming; and the toggle branch never re-validates:
on any state at all, even one with blank texts, it proceeds to mutate
and save. -/
theorem texts_nonblank (evs : List Ev) :
    (∀ it ∈ (runEv initState evs).items, jsTrim it.text ≠ "") ∧
    (∀ (s : AppState) (i : Nat), i < s.items.length →
      (clickOnItem s i).items.length = s.items.length ∧
      (clickOnItem s i).saveCount = s.saveCount + 1) := by
  constructor
  · exact (inv_runEv initState evs inv_initState).1
  · intro s i hi
    have h1 : s.items[i]? = some s.items[i] := List.getElem?_eq_getElem hi
    constructor <;> simp [clickOnItem, h1, saveData]

theorem texts_nonblank_witness :
    jsTrim ({ text := "a", checked := false } : Item).text ≠ "" ∧
    (clickOnItem (mkState [{ text := "", checked := false }] "") 0).saveCount = 1 :=
  ⟨(texts_nonblank [Ev.act (Op.submit "a")]).1 { text := "a", checked := false } (by decide),
   ((texts_nonblank []).2 (mkState [{ text := "", checked := false }] "") 0 (by decide)).2⟩
